import Mathlib

/-!
Verification development for the Navigator Agent Runner service
(`src/tools/runner/runner.py`): a command-execution gateway that resolves a
symbolic command id against an allow-list of argv templates, validates and
sanitizes substituted values, enforces a sliding-window rate limit, and runs
the resulting argv as a child process with a timeout.

Modelling conventions:
* Python `str` is modelled as `List Char` (`PyStr`), restricted to the ASCII
  fragment: `str.isalnum` is modelled by `Char.isAlphanum`, which agrees with
  Python on ASCII inputs (Python additionally accepts non-ASCII Unicode
  alphanumerics; nothing below depends on non-ASCII inputs).
* Python `dict` is modelled as an association list with first-match lookup.
* `pathlib.Path.resolve()` is modelled lexically (splitting on `/` and
  normalising empty, `.` and `..` segments); symlink resolution is outside
  the model.
* `time.time()` instants are modelled as rationals (seconds).
* Child-process execution is modelled by an explicit behaviour oracle
  (`ProcBehavior`): normal completion with captured streams, a timeout, or a
  spawn failure, plus the measured wall-clock duration in milliseconds.
-/

abbrev PyStr := List Char

/-- Convert a Lean string literal into the `List Char` model of Python strings. -/
def chars (s : String) : PyStr := s.data

/-- Values that may appear in the `args` mapping of a request (JSON scalars). -/
inductive PyValue where
  | str (s : PyStr)
  | int (n : Int)
  | bool (b : Bool)
deriving DecidableEq

/-- Python `str(value)` on the modelled scalar values. -/
def pyStrOfValue : PyValue → PyStr
  | .str s => s
  | .int n => chars (toString n)
  | .bool b => if b then chars "True" else chars "False"

/-- Whether a `PyValue` is of Python string type (`isinstance(value, str)`). -/
def PyValue.isStringValue : PyValue → Bool
  | .str _ => true
  | _ => false

/-- First-match lookup in an association list; models Python dict indexing
(`k in m` and `m[k]`). -/
def lookupList {α : Type} (m : List (PyStr × α)) (k : PyStr) : Option α :=
  match m with
  | [] => none
  | (k', v) :: rest => if k' = k then some v else lookupList rest k

/-- Boolean test that `n` is a leading segment of `h`; models Python
`h.startswith(n)`. -/
def strStartsWith : PyStr → PyStr → Bool
  | [], _ => true
  | _ :: _, [] => false
  | c :: n, d :: h => c = d && strStartsWith n h

/-- Boolean test that `n` occurs contiguously inside `h`; models Python
`n in h`. -/
def strContainsSub (n : PyStr) : PyStr → Bool
  | [] => strStartsWith n []
  | c :: h => strStartsWith n (c :: h) || strContainsSub n h

/-- Remove every occurrence of character `c`; models Python
`s.replace(c, "")` for a single-character pattern. -/
def removeChar (c : Char) (s : PyStr) : PyStr := s.filter (fun d => d ≠ c)

/-- ASCII model of Python `str.isalnum` on a single character. -/
def isPyAlnumChar (c : Char) : Bool := c.isAlphanum

/-- Model of Python `s.isalnum()`: nonempty and every character alphanumeric. -/
def pyIsAlnum (s : PyStr) : Bool := !s.isEmpty && s.all isPyAlnumChar

/-- The identifier test used for `run_id`-kind values in `build_argv`
(runner.py line 170): `value.replace("_", "").replace("-", "").isalnum()`. -/
def runIdOk (s : PyStr) : Bool := pyIsAlnum (removeChar '-' (removeChar '_' s))

/-! ### Path model

An absolute path is rendered from its segment list: `strOfSegs [a, b]` is
`"/a/b"`. `splitOnSlash` and `normStep` give the lexical model of
`Path.resolve()`. -/

/-- Render a list of path segments as an absolute path string. -/
def strOfSegs : List PyStr → PyStr
  | [] => []
  | s :: ss => '/' :: (s ++ strOfSegs ss)

/-- Model of `pathlib` division `base / p` for a relative `p` (string form). -/
def pathJoin (base p : PyStr) : PyStr :=
  if p = [] then base else base ++ '/' :: p

/-- Split a string on `'/'`; always returns a nonempty list of segments. -/
def splitOnSlash : PyStr → List PyStr
  | [] => [[]]
  | c :: rest =>
    match splitOnSlash rest with
    | [] => [[c]]
    | s :: ss => if c = '/' then [] :: s :: ss else (c :: s) :: ss

/-- One step of lexical path normalisation over a reversed accumulator of
segments: skip empty and `.` segments, pop on `..`, push otherwise. -/
def normStep (acc : List PyStr) (seg : PyStr) : List PyStr :=
  if seg = [] ∨ seg = chars "." then acc
  else if seg = chars ".." then acc.tail
  else seg :: acc

/-- Lexical model of `Path.resolve()` on an absolute path string (symlinks
are outside the model). -/
def resolvePath (s : PyStr) : PyStr :=
  strOfSegs (((splitOnSlash s).foldl normStep []).reverse)

/-- The externally visible rejection message of `sanitize_path`: every
internal failure is re-raised by the `except` clause at runner.py line 131
as `ValueError(f"Invalid path: {path}")`, so the inner
"Path outside allowed directory" messages are never observable. -/
def invalidPathMsg (p : PyStr) : PyStr := chars "Invalid path: " ++ p

/-- Shallow embedding of `sanitize_path` (runner.py lines 115-132): reject if
the input contains the substring `..` or starts with `/`; otherwise join to
the base, resolve, and require the resolved string to start with the base
string. On success the unresolved joined path is returned. -/
def sanitize_path (path : PyStr) (base_path : PyStr) : Except PyStr PyStr :=
  if strContainsSub (chars "..") path || strStartsWith (chars "/") path then
    .error (invalidPathMsg path)
  else
    let full_path := pathJoin base_path path
    let resolved := resolvePath full_path
    if strStartsWith base_path resolved then .ok full_path
    else .error (invalidPathMsg path)

/-- A path segment acceptable inside a canonical project root: nonempty,
slash-free, and not a dot segment. -/
def validSeg (s : PyStr) : Bool :=
  !s.isEmpty && s.all (fun c => c ≠ '/') && s ≠ chars "." && s ≠ chars ".."

instance {ε α : Type} [DecidableEq ε] [DecidableEq α] : DecidableEq (Except ε α) :=
  fun a b =>
  match a, b with
  | .ok x, .ok y => decidable_of_iff (x = y) (by simp)
  | .error x, .error y => decidable_of_iff (x = y) (by simp)
  | .ok _, .error _ => .isFalse (fun h => Except.noConfusion h)
  | .error _, .ok _ => .isFalse (fun h => Except.noConfusion h)

/-! ### Argument-vector builder -/

/-- Per-placeholder configuration from the allow-list: `config.get("type")`
and `config.get("required", True)`. -/
structure PlaceholderConfig where
  ty : Option PyStr
  required : Bool
deriving DecidableEq

/-- One token of an allow-list template: either a literal string or a dict of
placeholders (the Python code iterates `item.items()`, so one dict token may
carry several named placeholders). -/
inductive TemplateItem where
  | lit (s : PyStr)
  | phs (entries : List (PyStr × PlaceholderConfig))
deriving DecidableEq

/-- Errors raised out of `build_argv`: `HTTPException(status_code, detail)`
or a `ValueError` (the latter escapes from `sanitize_path`). -/
inductive RunnerError where
  | http (status : Nat) (detail : PyStr)
  | valueError (msg : PyStr)
deriving DecidableEq

abbrev Args := List (PyStr × PyValue)
abbrev Allowlist := List (PyStr × List TemplateItem)

/-- Prepend a token to the rest of a successfully built argv. -/
def consOk (t : PyStr) : Except RunnerError (List PyStr) → Except RunnerError (List PyStr)
  | .error e => .error e
  | .ok v => .ok (t :: v)

/-- The per-value validation of `build_argv` (runner.py lines 161-185) for a
placeholder whose value is present in `args`: string values are dispatched on
`config.get("type")` (`"file"` → path sanitization, `"run_id"` → identifier
check, anything else → length check); non-string values are stringified with
no validation at all. -/
def buildToken (base placeholder : PyStr) (config : PlaceholderConfig) (value : PyValue) :
    Except RunnerError PyStr :=
  match value with
  | .str v =>
    if config.ty = some (chars "file") then
      match sanitize_path v base with
      | .error m => .error (.valueError m)
      | .ok s => .ok s
    else if config.ty = some (chars "run_id") then
      if runIdOk v then .ok v
      else .error (.http 400 (chars "Invalid run_id format: " ++ v))
    else
      if 1000 < v.length then
        .error (.http 400 (chars "Argument too long: " ++ placeholder))
      else .ok v
  | v => .ok (pyStrOfValue v)

/-- The placeholder loop of `build_argv` (runner.py lines 152-185) over the
entries of one dict token, in declared order: a missing required value fails
with status 400, a missing optional value is skipped. -/
def buildEntries (base : PyStr) (args : Args) :
    List (PyStr × PlaceholderConfig) → Except RunnerError (List PyStr)
  | [] => .ok []
  | (placeholder, config) :: es =>
    match lookupList args placeholder with
    | none =>
      if config.required then
        .error (.http 400 (chars "Missing required argument: " ++ placeholder))
      else buildEntries base args es
    | some value =>
      match buildToken base placeholder config value with
      | .error e => .error e
      | .ok t => consOk t (buildEntries base args es)

/-- The template loop of `build_argv` (runner.py lines 147-185): literal
tokens are appended verbatim, placeholder tokens are resolved in order. -/
def buildItems (base : PyStr) (args : Args) : List TemplateItem → Except RunnerError (List PyStr)
  | [] => .ok []
  | .lit s :: rest => consOk s (buildItems base args rest)
  | .phs entries :: rest =>
    match buildEntries base args entries with
    | .error e => .error e
    | .ok xs =>
      match buildItems base args rest with
      | .error e => .error e
      | .ok ys => .ok (xs ++ ys)

/-- Shallow embedding of `build_argv` (runner.py lines 135-187): unknown
command ids fail with status 403 before any argument is inspected. -/
def build_argv (cmd_id : PyStr) (args : Args) (allowlist : Allowlist) (base : PyStr) :
    Except RunnerError (List PyStr) :=
  match lookupList allowlist cmd_id with
  | none => .error (.http 403 (chars "Command '" ++ cmd_id ++ chars "' not in allow-list"))
  | some template => buildItems base args template

/-! ### Rate limiter -/

/-- Result of one rate-limit check together with the new contents of
`rate_limit_store["requests"]` (the pruned list is written back even when the
attempt is rejected). -/
inductive RateResult where
  | allowed (store : List ℚ)
  | limited (store : List ℚ)
deriving DecidableEq

/-- The pruning comprehension of `check_rate_limit` (runner.py lines 102-104):
keep only timestamps strictly newer than `now - 60`. -/
def pruneWindow (now : ℚ) (requests : List ℚ) : List ℚ :=
  requests.filter (fun t => now - 60 < t)

/-- Shallow embedding of `check_rate_limit` (runner.py lines 96-112): prune
the window, reject with 429 at capacity 15 without recording, otherwise
record `now`. -/
def check_rate_limit (now : ℚ) (requests : List ℚ) : RateResult :=
  let pruned := pruneWindow now requests
  if 15 ≤ pruned.length then .limited pruned
  else .allowed (pruned ++ [now])

/-! ### Process executor -/

/-- Behaviour oracle for one child-process invocation: normal completion with
captured streams, expiry of the `subprocess.run` timeout, or any spawn
failure (missing executable, permission denied, ...) carrying `str(e)`. -/
inductive ProcBehavior where
  | completes (returncode : Int) (stdout stderr : PyStr)
  | timesOut
  | spawnFails (msg : PyStr)
deriving DecidableEq

/-- The dict returned by `execute_command` (runner.py lines 216-238). -/
structure ExecOutcome where
  returncode : Int
  stdout_tail : PyStr
  stderr_tail : PyStr
  duration_ms : Int
deriving DecidableEq

/-- Python slicing `s[-n:]` (the trailing `n` characters). -/
def tailChars (n : Nat) (s : PyStr) : PyStr := s.drop (s.length - n)

/-- Shallow embedding of `execute_command` (runner.py lines 190-238): streams
are truncated to their trailing 4000 characters; a timeout or a spawn failure
is converted to `returncode = -1` with a descriptive `stderr_tail` instead of
propagating. `elapsed_ms` is the measured `int((time.time() - start) * 1000)`. -/
def execute_command (timeout_sec : Int) (behavior : ProcBehavior) (elapsed_ms : Int) :
    ExecOutcome :=
  match behavior with
  | .completes rc out err =>
    { returncode := rc, stdout_tail := tailChars 4000 out,
      stderr_tail := tailChars 4000 err, duration_ms := elapsed_ms }
  | .timesOut =>
    { returncode := -1, stdout_tail := [],
      stderr_tail := chars "Command timed out after " ++ chars (toString timeout_sec)
        ++ chars " seconds",
      duration_ms := elapsed_ms }
  | .spawnFails m =>
    { returncode := -1, stdout_tail := [],
      stderr_tail := chars "Execution error: " ++ m, duration_ms := elapsed_ms }

/-! ### Gateway façade -/

/-- The request model (pydantic `CommandRequest`), after shape validation. -/
structure CommandRequest where
  cmd_id : PyStr
  args : Args
  dry_run : Bool
  timeout_sec : Int
deriving DecidableEq

/-- The pydantic `validate_args` check (runner.py lines 63-68): no string
value in `args` may contain a line-break character. -/
def validate_args (args : Args) : Bool :=
  args.all (fun kv =>
    match kv.2 with
    | .str v => !(v.contains '\n' || v.contains '\r')
    | _ => true)

/-- The response model (`CommandResponse`), all optional fields defaulting to
`None`. -/
structure CommandResponse where
  ok : Bool
  argv : Option (List PyStr) := none
  returncode : Option Int := none
  stdout_tail : Option PyStr := none
  stderr_tail : Option PyStr := none
  duration_ms : Option Int := none
  error : Option PyStr := none
deriving DecidableEq

/-- Observable outcome of one `POST /run` request: the HTTP status, the
`HTTPException` detail (when the handler raised), the response body (when it
returned), whether a child process was spawned, and the rate store left
behind. -/
structure RunResult where
  status : Nat
  detail : Option PyStr
  resp : Option CommandResponse
  spawned : Bool
  store : List ℚ
deriving DecidableEq

/-- Shallow embedding of the `POST /run` handler `run_command` (runner.py
lines 398-440): rate check first (a 429 propagates), then argv build —
an `HTTPException` from the build is re-raised with its own status, while a
`ValueError` (path violation) is caught by the generic `except Exception`
clause and turned into a 200 response with `ok=false` and an
"Internal error: ..." message. A successful build either short-circuits on
`dry_run` or executes the child process. -/
def run_command (req : CommandRequest) (allowlist : Allowlist) (base : PyStr)
    (now : ℚ) (store : List ℚ) (behavior : ProcBehavior) (elapsed_ms : Int) : RunResult :=
  match check_rate_limit now store with
  | .limited s =>
    { status := 429, detail := some (chars "Rate limit exceeded: 15 requests per minute"),
      resp := none, spawned := false, store := s }
  | .allowed s =>
    match build_argv req.cmd_id req.args allowlist base with
    | .error (.http code d) =>
      { status := code, detail := some d, resp := none, spawned := false, store := s }
    | .error (.valueError m) =>
      { status := 200, detail := none,
        resp := some { ok := false, error := some (chars "Internal error: " ++ m) },
        spawned := false, store := s }
    | .ok argv =>
      if req.dry_run then
        { status := 200, detail := none,
          resp := some { ok := true, argv := some argv }, spawned := false, store := s }
      else
        { status := 200, detail := none,
          resp := some
            { ok := (execute_command req.timeout_sec behavior elapsed_ms).returncode == 0,
              argv := some argv,
              returncode := some (execute_command req.timeout_sec behavior elapsed_ms).returncode,
              stdout_tail := some (execute_command req.timeout_sec behavior elapsed_ms).stdout_tail,
              stderr_tail := some (execute_command req.timeout_sec behavior elapsed_ms).stderr_tail,
              duration_ms := some (execute_command req.timeout_sec behavior elapsed_ms).duration_ms },
          spawned := true, store := s }

/-- The identifier pattern named by the specification for identifier-kind
values. Modelled from the spec: the regular expression `^[A-Za-z0-9_-]+$`
(this definition follows the spec's words, for comparison with the source's
`runIdOk`). -/
def matchesIdentRegex (s : PyStr) : Bool :=
  !s.isEmpty && s.all (fun c => c.isAlpha || c.isDigit || c = '_' || c = '-')

/-! ### Concrete instances used in counterexamples and witnesses -/

/-- Whether lexical normalisation keeps a segment (neither empty nor `.`). -/
def keepSeg (s : PyStr) : Bool := s ≠ [] && s ≠ chars "."

/-- A sample canonical project root. -/
def exBase : PyStr := chars "/proj"

/-- Placeholder configuration of kind `run_id`. -/
def runIdCfg : PlaceholderConfig := { ty := some (chars "run_id"), required := true }

/-- Placeholder configuration of kind `string`. -/
def strCfg : PlaceholderConfig := { ty := some (chars "string"), required := true }

/-- Placeholder configuration of kind `file`. -/
def fileCfg : PlaceholderConfig := { ty := some (chars "file"), required := true }

/-- Allow-list with a `validate` command taking one required file argument. -/
def exAllowlist : Allowlist :=
  [(chars "validate",
    [.lit (chars "mova"), .lit (chars "validate"), .phs [(chars "file", fileCfg)]])]

/-- A request whose file argument violates path containment. -/
def pathViolReq : CommandRequest :=
  { cmd_id := chars "validate", args := [(chars "file", .str (chars "/etc/passwd"))],
    dry_run := false, timeout_sec := 30 }

/-- The spec's dry-run scenario allow-list:
`{"echo_test": ["echo", {"msg": {"type": "string", "required": true}}]}`. -/
def echoAllowlist : Allowlist :=
  [(chars "echo_test", [.lit (chars "echo"), .phs [(chars "msg", strCfg)]])]

/-- The spec's dry-run scenario request. -/
def echoReq : CommandRequest :=
  { cmd_id := chars "echo_test", args := [(chars "msg", .str (chars "hello"))],
    dry_run := true, timeout_sec := 30 }


/-! ### Theorems -/

/-- C3: on every check the rate limiter drops recorded timestamps older than
`now - 60`; if the remaining count is at or above the capacity of 15 it fails
with RateLimited without recording the attempt, otherwise it records `now`
and succeeds; after 15 accepted calls within one 60-second window the 16th
call in the window fails, and once the window fully elapses a new call
succeeds. -/
theorem c3_rate_limiter_behavior (now : ℚ) (requests : List ℚ) :
    (∀ t ∈ requests, t ≤ now - 60 → t ∉ pruneWindow now requests) ∧
    (15 ≤ (pruneWindow now requests).length →
      check_rate_limit now requests = .limited (pruneWindow now requests)) ∧
    ((pruneWindow now requests).length < 15 →
      check_rate_limit now requests = .allowed (pruneWindow now requests ++ [now])) ∧
    (requests.length = 15 → (∀ t ∈ requests, now - 60 < t) →
      check_rate_limit now requests = .limited requests) ∧
    ((∀ t ∈ requests, t ≤ now - 60) → check_rate_limit now requests = .allowed [now]) := by
  refine ⟨?_, ?_, ?_, ?_, ?_⟩
  · intro t ht hle hmem
    simp only [pruneWindow, List.mem_filter, decide_eq_true_eq] at hmem
    linarith [hmem.2]
  · intro h
    simp only [check_rate_limit]
    rw [if_pos h]
  · intro h
    simp only [check_rate_limit]
    rw [if_neg (Nat.not_le.2 h)]
  · intro hlen hall
    have hself : pruneWindow now requests = requests := by
      simp only [pruneWindow]
      rw [List.filter_eq_self]
      intro a ha
      simpa using hall a ha
    simp only [check_rate_limit, hself, hlen]
    rw [if_pos (by omega)]
  · intro hall
    have hnil : pruneWindow now requests = [] := by
      simp only [pruneWindow]
      rw [List.filter_eq_nil_iff]
      intro a ha
      simp only [decide_eq_true_eq, not_lt]
      linarith [hall a ha]
    simp only [check_rate_limit, hnil]
    rw [if_neg (by simp)]
    simp

/-- C3 witness: with 15 timestamps inside the window the 16th call is
rate-limited and the store is unchanged; once all timestamps have aged out a
new call is accepted and records only the new instant. -/
theorem c3_witness :
    check_rate_limit 100 (List.replicate 15 (50 : ℚ)) =
      .limited (List.replicate 15 (50 : ℚ)) ∧
    check_rate_limit 200 (List.replicate 15 (50 : ℚ)) = .allowed [200] :=
  ⟨(c3_rate_limiter_behavior 100 (List.replicate 15 (50 : ℚ))).2.2.2.1 (by simp)
      (by intro t ht; rw [List.eq_of_mem_replicate ht]; norm_num),
   (c3_rate_limiter_behavior 200 (List.replicate 15 (50 : ℚ))).2.2.2.2
      (by intro t ht; rw [List.eq_of_mem_replicate ht]; norm_num)⟩

/-- C8: the process executor is total over its failure modes (every behaviour
of the child produces an `ExecOutcome`; nothing propagates): on timeout it
returns `returncode = -1`, a stderr tail explaining the timeout, and a
duration of at least `timeout_sec * 1000` milliseconds (the hypothesis
`htime` reflects the `subprocess.run` contract that `TimeoutExpired` is only
raised once `timeout_sec` seconds of wall time have elapsed); on any spawn
failure it returns the same shape with `returncode = -1` and a descriptive
stderr tail. -/
theorem c8_executor_failure_modes (timeout_sec : Int) (behavior : ProcBehavior)
    (elapsed_ms : Int)
    (htime : behavior = .timesOut → timeout_sec * 1000 ≤ elapsed_ms) :
    (behavior = .timesOut →
      execute_command timeout_sec behavior elapsed_ms =
        { returncode := -1, stdout_tail := [],
          stderr_tail := chars "Command timed out after " ++ chars (toString timeout_sec)
            ++ chars " seconds",
          duration_ms := elapsed_ms } ∧
      timeout_sec * 1000 ≤ (execute_command timeout_sec behavior elapsed_ms).duration_ms) ∧
    (∀ m, behavior = .spawnFails m →
      execute_command timeout_sec behavior elapsed_ms =
        { returncode := -1, stdout_tail := [],
          stderr_tail := chars "Execution error: " ++ m, duration_ms := elapsed_ms }) ∧
    (∀ rc out err, behavior = .completes rc out err →
      execute_command timeout_sec behavior elapsed_ms =
        { returncode := rc, stdout_tail := tailChars 4000 out,
          stderr_tail := tailChars 4000 err, duration_ms := elapsed_ms }) := by
  refine ⟨?_, ?_, ?_⟩
  · intro hb
    subst hb
    exact ⟨rfl, htime rfl⟩
  · intro m hb
    subst hb
    rfl
  · intro rc out err hb
    subst hb
    rfl

/-- C8 witness: a 1-second timeout observed after 1500 ms of wall time. -/
theorem c8_witness :
    execute_command 1 .timesOut 1500 =
      { returncode := -1, stdout_tail := [],
        stderr_tail := chars "Command timed out after " ++ chars (toString (1 : Int))
          ++ chars " seconds",
        duration_ms := 1500 } ∧
    (1 : Int) * 1000 ≤ (execute_command 1 .timesOut 1500).duration_ms :=
  (c8_executor_failure_modes 1 .timesOut 1500 (fun _ => by decide)).1 rfl

/-- C10: a non-string value supplied for a placeholder of any kind (path,
identifier, or string) is stringified with `str(value)` and appended with no
per-kind validation: the type dispatch in `build_argv` happens only under
`isinstance(value, str)`. -/
theorem c10_nonstring_bypass (base placeholder : PyStr) (config : PlaceholderConfig)
    (args : Args) (es : List (PyStr × PlaceholderConfig)) (value : PyValue)
    (hv : value.isStringValue = false)
    (hlook : lookupList args placeholder = some value) :
    buildToken base placeholder config value = .ok (pyStrOfValue value) ∧
    buildEntries base args ((placeholder, config) :: es) =
      consOk (pyStrOfValue value) (buildEntries base args es) := by
  cases value with
  | str s => simp [PyValue.isStringValue] at hv
  | int n => exact ⟨rfl, by simp [buildEntries, hlook, buildToken]⟩
  | bool b => exact ⟨rfl, by simp [buildEntries, hlook, buildToken]⟩

/-- C10 witness: the integer 7 supplied for a file-kind placeholder is
appended as the string "7" with no path sanitization. -/
theorem c10_witness :
    buildToken exBase (chars "file") fileCfg (.int 7) = .ok (pyStrOfValue (.int 7)) ∧
    buildEntries exBase [(chars "file", .int 7)] [(chars "file", fileCfg)] =
      consOk (pyStrOfValue (.int 7)) (buildEntries exBase [(chars "file", .int 7)] []) :=
  c10_nonstring_bypass exBase (chars "file") fileCfg [(chars "file", .int 7)] []
    (.int 7) (by decide) (by decide)

/-- C4 counterexample: the value "_" matches the specified pattern
`^[A-Za-z0-9_-]+$`, yet the builder rejects it, because the source first
strips every underscore and hyphen and Python's `"".isalnum()` is false. -/
theorem c4_counterexample :
    matchesIdentRegex (chars "_") = true ∧
    buildToken exBase (chars "run_id") runIdCfg (.str (chars "_")) =
      .error (.http 400 (chars "Invalid run_id format: " ++ chars "_")) := by
  decide

/-- C4 amended: an identifier-kind (run_id) string value is accepted exactly
when stripping every underscore and hyphen leaves a nonempty alphanumeric
string; in particular every value containing whitespace or any of the shell
metacharacters `; & | $` (or a backquote) is rejected with the
InvalidIdentifier error. -/
theorem c4_amended (v placeholder : PyStr) :
    (runIdOk v = true → buildToken exBase placeholder runIdCfg (.str v) = .ok v) ∧
    (runIdOk v = false → buildToken exBase placeholder runIdCfg (.str v) =
      .error (.http 400 (chars "Invalid run_id format: " ++ v))) ∧
    (runIdOk v = true ↔
      (removeChar '-' (removeChar '_' v) ≠ [] ∧
       ∀ c ∈ removeChar '-' (removeChar '_' v), isPyAlnumChar c = true)) ∧
    (∀ c ∈ v, (c = ' ' ∨ c = ';' ∨ c = '&' ∨ c = '|' ∨ c = Char.ofNat 96 ∨ c = '$' ∨
        c = '\n' ∨ c = '\t' ∨ c = '\r') →
      buildToken exBase placeholder runIdCfg (.str v) =
        .error (.http 400 (chars "Invalid run_id format: " ++ v))) := by
  have hb : buildToken exBase placeholder runIdCfg (.str v) =
      (if runIdOk v = true then .ok v
       else .error (.http 400 (chars "Invalid run_id format: " ++ v))) := by
    simp [buildToken, runIdCfg]
    intro h
    exact absurd h (by decide)
  have hiff : runIdOk v = true ↔
      (removeChar '-' (removeChar '_' v) ≠ [] ∧
       ∀ c ∈ removeChar '-' (removeChar '_' v), isPyAlnumChar c = true) := by
    simp [runIdOk, pyIsAlnum, List.all_eq_true, List.isEmpty_iff]
  refine ⟨fun h => by rw [hb, if_pos h], fun h => by rw [hb, if_neg (by simp [h])], hiff, ?_⟩
  intro c hc hbad
  have hne : c ≠ '_' ∧ c ≠ '-' ∧ isPyAlnumChar c = false := by
    rcases hbad with rfl | rfl | rfl | rfl | rfl | rfl | rfl | rfl | rfl <;>
      exact ⟨by decide, by decide, by decide⟩
  have hstrip : c ∈ removeChar '-' (removeChar '_' v) := by
    simp [removeChar, List.mem_filter, hc, hne.1, hne.2.1]
  have hfalse : runIdOk v = false := by
    rw [Bool.eq_false_iff]
    intro htrue
    have hall := (hiff.mp htrue).2 c hstrip
    rw [hne.2.2] at hall
    cases hall
  rw [hb, if_neg (by simp [hfalse])]

/-- C4 witness: a run_id value containing a semicolon is rejected with the
InvalidIdentifier error. -/
theorem c4_witness :
    buildToken exBase (chars "x") runIdCfg (.str (chars "abc;rm")) =
      .error (.http 400 (chars "Invalid run_id format: " ++ chars "abc;rm")) :=
  (c4_amended (chars "abc;rm") (chars "x")).2.2.2 ';' (by decide) (by decide)

/-- C5 counterexample: the builder itself accepts a string-kind value that
contains a line break — there is no line-break check in `build_argv`, only
the request-level pydantic validator has one. -/
theorem c5_counterexample :
    (chars "a\nb").contains '\n' = true ∧
    buildToken exBase (chars "msg") strCfg (.str (chars "a\nb")) = .ok (chars "a\nb") := by
  decide

/-- C5 amended: for a string-kind placeholder the builder checks only that a
string value has length at most 1000 (failing with the "Argument too long"
error otherwise); the no-line-break guarantee is enforced solely by the
request-level validator `CommandRequest.validate_args`, which rejects any
request whose string arguments contain a line break. -/
theorem c5_amended (base v placeholder : PyStr) (config : PlaceholderConfig)
    (args : Args) (k : PyStr)
    (hfile : config.ty ≠ some (chars "file")) (hrun : config.ty ≠ some (chars "run_id")) :
    (v.length ≤ 1000 → buildToken base placeholder config (.str v) = .ok v) ∧
    (1000 < v.length → buildToken base placeholder config (.str v) =
      .error (.http 400 (chars "Argument too long: " ++ placeholder))) ∧
    (validate_args args = true → (k, PyValue.str v) ∈ args →
      v.contains '\n' = false ∧ v.contains '\r' = false) := by
  have hb : buildToken base placeholder config (.str v) =
      (if 1000 < v.length then
        .error (.http 400 (chars "Argument too long: " ++ placeholder))
       else .ok v) := by
    simp only [buildToken]
    rw [if_neg hfile, if_neg hrun]
  refine ⟨fun h => by rw [hb, if_neg (Nat.not_lt.2 h)], fun h => by rw [hb, if_pos h], ?_⟩
  intro hval hmem
  simp only [validate_args, List.all_eq_true] at hval
  have h2 := hval (k, .str v) hmem
  simp only [Bool.not_eq_true', Bool.or_eq_false_iff] at h2
  exact h2

/-- C5 witness: a short string-kind value is accepted verbatim, and a request
argument map passing validation has no line break in its string values. -/
theorem c5_witness :
    buildToken exBase (chars "msg") strCfg (.str (chars "hello")) = .ok (chars "hello") ∧
    ((chars "hi").contains '\n' = false ∧ (chars "hi").contains '\r' = false) :=
  ⟨(c5_amended exBase (chars "hello") (chars "msg") strCfg
      [(chars "m", .str (chars "hi"))] (chars "m") (by decide) (by decide)).1 (by decide),
   (c5_amended exBase (chars "hi") (chars "msg") strCfg
      [(chars "m", .str (chars "hi"))] (chars "m") (by decide) (by decide)).2.2
      (by decide) (by decide)⟩

/-- C6: the builder emits tokens in template order (building a concatenated
template is the ordered concatenation of building its parts, with the first
failure winning); a missing required placeholder fails with the
MissingArgument error, and a missing optional placeholder is omitted
entirely — no empty token is appended. -/
theorem c6_template_order (base : PyStr) (args : Args) (tpl1 tpl2 : List TemplateItem)
    (placeholder : PyStr) (config : PlaceholderConfig)
    (es : List (PyStr × PlaceholderConfig)) :
    (buildItems base args (tpl1 ++ tpl2) =
      match buildItems base args tpl1 with
      | .error e => .error e
      | .ok xs =>
        match buildItems base args tpl2 with
        | .error e => .error e
        | .ok ys => .ok (xs ++ ys)) ∧
    (lookupList args placeholder = none → config.required = true →
      buildEntries base args ((placeholder, config) :: es) =
        .error (.http 400 (chars "Missing required argument: " ++ placeholder))) ∧
    (lookupList args placeholder = none → config.required = false →
      buildEntries base args ((placeholder, config) :: es) = buildEntries base args es) := by
  refine ⟨?_, ?_, ?_⟩
  · induction tpl1 with
    | nil =>
      simp only [List.nil_append, buildItems]
      cases h2 : buildItems base args tpl2 <;> simp
    | cons i t ih =>
      cases i with
      | lit s =>
        simp only [List.cons_append, buildItems, List.append_eq]
        rw [ih]
        cases h1 : buildItems base args t <;> cases h2 : buildItems base args tpl2 <;>
          simp [consOk]
      | phs entries =>
        simp only [List.cons_append, buildItems, List.append_eq]
        rw [ih]
        cases h0 : buildEntries base args entries <;>
          cases h1 : buildItems base args t <;>
            cases h2 : buildItems base args tpl2 <;> simp
  · intro hlook hreq
    simp [buildEntries, hlook, hreq]
  · intro hlook hreq
    simp [buildEntries, hlook, hreq]

/-- C6 witness: with an empty argument map, a required placeholder fails with
the MissingArgument error. -/
theorem c6_witness :
    buildEntries exBase [] [(chars "file", fileCfg)] =
      .error (.http 400 (chars "Missing required argument: " ++ chars "file")) :=
  (c6_template_order exBase [] [] [] (chars "file") fileCfg []).2.1 rfl rfl

/-- Helper: every HTTPException raised by the per-value validation of the
builder has status 400. -/
theorem buildToken_http_code (base placeholder : PyStr) (config : PlaceholderConfig)
    (value : PyValue) (code : Nat) (d : PyStr)
    (h : buildToken base placeholder config value = .error (.http code d)) :
    code = 400 := by
  cases value with
  | str v =>
    simp only [buildToken] at h
    split_ifs at h with h1 h2 h3 h4 <;>
      first
        | (cases hs : sanitize_path v base <;> rw [hs] at h <;> simp at h)
        | (simp only [Except.error.injEq, RunnerError.http.injEq] at h; exact h.1.symm)
  | int n => simp [buildToken] at h
  | bool b => simp [buildToken] at h

/-- Helper: every HTTPException raised by the placeholder loop has
status 400. -/
theorem buildEntries_http_code (base : PyStr) (args : Args) (code : Nat) (d : PyStr) :
    ∀ es, buildEntries base args es = .error (.http code d) → code = 400 := by
  intro es
  induction es with
  | nil => intro h; simp [buildEntries] at h
  | cons e rest ih =>
    obtain ⟨placeholder, config⟩ := e
    intro h
    cases hl : lookupList args placeholder with
    | none =>
      simp only [buildEntries, hl] at h
      by_cases hr : config.required
      · rw [if_pos hr] at h
        simp only [Except.error.injEq, RunnerError.http.injEq] at h
        exact h.1.symm
      · rw [if_neg hr] at h
        exact ih h
    | some value =>
      cases ht : buildToken base placeholder config value with
      | error e2 =>
        simp only [buildEntries, hl, ht] at h
        injection h with h2
        rw [h2] at ht
        exact buildToken_http_code base placeholder config value code d ht
      | ok t =>
        cases hrest : buildEntries base args rest with
        | error e3 =>
          simp only [buildEntries, hl, ht, hrest, consOk] at h
          injection h with h2
          rw [h2] at hrest
          exact ih hrest
        | ok v2 =>
          simp only [buildEntries, hl, ht, hrest, consOk] at h
          exact Except.noConfusion h

/-- Helper: every HTTPException raised by the template loop has status 400. -/
theorem buildItems_http_code (base : PyStr) (args : Args) (code : Nat) (d : PyStr) :
    ∀ tpl, buildItems base args tpl = .error (.http code d) → code = 400 := by
  intro tpl
  induction tpl with
  | nil => intro h; simp [buildItems] at h
  | cons i rest ih =>
    intro h
    cases i with
    | lit s =>
      simp only [buildItems] at h
      cases hrest : buildItems base args rest with
      | error e2 =>
        rw [hrest] at h
        simp only [consOk, Except.error.injEq] at h
        rw [h] at hrest
        exact ih hrest
      | ok v2 => rw [hrest] at h; simp [consOk] at h
    | phs entries =>
      simp only [buildItems] at h
      cases he : buildEntries base args entries with
      | error e2 =>
        rw [he] at h
        injection h with h2
        rw [h2] at he
        exact buildEntries_http_code base args code d entries he
      | ok xs =>
        rw [he] at h
        cases hrest : buildItems base args rest with
        | error e3 =>
          rw [hrest] at h
          injection h with h2
          rw [h2] at hrest
          exact ih hrest
        | ok ys => rw [hrest] at h; simp at h

/-- Helper: an HTTPException out of `build_argv` is 403 exactly for an
unknown command id and 400 otherwise. -/
theorem build_argv_http_code (cmd_id : PyStr) (args : Args) (al : Allowlist)
    (base : PyStr) (code : Nat) (d : PyStr)
    (h : build_argv cmd_id args al base = .error (.http code d)) :
    (lookupList al cmd_id = none ∧ code = 403) ∨ code = 400 := by
  simp only [build_argv] at h
  cases hl : lookupList al cmd_id with
  | none =>
    rw [hl] at h
    simp only [Except.error.injEq, RunnerError.http.injEq] at h
    exact Or.inl ⟨rfl, h.1.symm⟩
  | some tpl =>
    rw [hl] at h
    exact Or.inr (buildItems_http_code base args code d tpl h)

/-- C1 counterexample: a request whose file argument violates path
containment does not fail with status 400 — the ValueError raised by
`sanitize_path` is caught by the generic exception handler of the `/run`
endpoint and converted into a status-200 response with `ok = false` and an
"Internal error" message, and no process is spawned. -/
theorem c1_counterexample :
    (run_command pathViolReq exAllowlist exBase 1000 [] (.completes 0 [] []) 0).status
      = 200 ∧
    (run_command pathViolReq exAllowlist exBase 1000 [] (.completes 0 [] []) 0).status
      ≠ 400 ∧
    (run_command pathViolReq exAllowlist exBase 1000 [] (.completes 0 [] []) 0).resp =
      some { ok := false,
             error := some (chars "Internal error: Invalid path: /etc/passwd") } ∧
    (run_command pathViolReq exAllowlist exBase 1000 [] (.completes 0 [] []) 0).spawned
      = false := by
  decide

/-- C1 amended: the `/run` outcome taxonomy as implemented — 429 when the
rate window is full (checked before anything else); otherwise 403 when
`cmd_id` is not an allow-list key, regardless of `args`; 400 for a missing
required argument, invalid identifier, or over-long string (every
HTTPException out of the builder is 403-for-unknown-command or 400); a path
violation yields status 200 with `ok = false` and an "Internal error"
message, with no process spawned; and a successful non-dry-run build yields
status 200 with `ok` equal to `returncode == 0`, including when the child
exits non-zero. -/
theorem c1_amended (req : CommandRequest) (al : Allowlist) (base : PyStr) (now : ℚ)
    (store : List ℚ) (behavior : ProcBehavior) (elapsed_ms : Int) :
    (15 ≤ (pruneWindow now store).length →
      (run_command req al base now store behavior elapsed_ms).status = 429) ∧
    ((pruneWindow now store).length < 15 → lookupList al req.cmd_id = none →
      (run_command req al base now store behavior elapsed_ms).status = 403) ∧
    (∀ code d, (pruneWindow now store).length < 15 →
      build_argv req.cmd_id req.args al base = .error (.http code d) →
      (run_command req al base now store behavior elapsed_ms).status = code ∧
      ((lookupList al req.cmd_id = none ∧ code = 403) ∨ code = 400)) ∧
    (∀ m, (pruneWindow now store).length < 15 →
      build_argv req.cmd_id req.args al base = .error (.valueError m) →
      (run_command req al base now store behavior elapsed_ms).status = 200 ∧
      (run_command req al base now store behavior elapsed_ms).resp =
        some { ok := false, error := some (chars "Internal error: " ++ m) } ∧
      (run_command req al base now store behavior elapsed_ms).spawned = false) ∧
    (∀ argv, (pruneWindow now store).length < 15 → req.dry_run = false →
      build_argv req.cmd_id req.args al base = .ok argv →
      (run_command req al base now store behavior elapsed_ms).status = 200 ∧
      (run_command req al base now store behavior elapsed_ms).resp =
        some { ok := (execute_command req.timeout_sec behavior elapsed_ms).returncode == 0,
               argv := some argv,
               returncode := some (execute_command req.timeout_sec behavior elapsed_ms).returncode,
               stdout_tail := some (execute_command req.timeout_sec behavior elapsed_ms).stdout_tail,
               stderr_tail := some (execute_command req.timeout_sec behavior elapsed_ms).stderr_tail,
               duration_ms := some (execute_command req.timeout_sec behavior elapsed_ms).duration_ms }) := by
  have hlim : 15 ≤ (pruneWindow now store).length →
      check_rate_limit now store = .limited (pruneWindow now store) := by
    intro h
    simp only [check_rate_limit]
    rw [if_pos h]
  have hall : (pruneWindow now store).length < 15 →
      check_rate_limit now store = .allowed (pruneWindow now store ++ [now]) := by
    intro h
    simp only [check_rate_limit]
    rw [if_neg (Nat.not_le.2 h)]
  refine ⟨?_, ?_, ?_, ?_, ?_⟩
  · intro h
    simp only [run_command, hlim h]
  · intro h hnone
    have hb : build_argv req.cmd_id req.args al base =
        .error (.http 403 (chars "Command '" ++ req.cmd_id ++ chars "' not in allow-list")) := by
      simp only [build_argv, hnone]
    simp only [run_command, hall h, hb]
  · intro code d h hb
    refine ⟨?_, build_argv_http_code req.cmd_id req.args al base code d hb⟩
    simp only [run_command, hall h, hb]
  · intro m h hb
    simp [run_command, hall h, hb]
  · intro argv h hdry hb
    simp [run_command, hall h, hb, hdry]

/-- C1 witness: an unknown command id fails with status 403 regardless of
the supplied arguments, when the rate window is open. -/
theorem c1_witness :
    (run_command
      { cmd_id := chars "nope", args := [(chars "x", .str (chars "y"))],
        dry_run := false, timeout_sec := 30 }
      exAllowlist exBase 0 [] (.completes 0 [] []) 0).status = 403 :=
  (c1_amended
    { cmd_id := chars "nope", args := [(chars "x", .str (chars "y"))],
      dry_run := false, timeout_sec := 30 }
    exAllowlist exBase 0 [] (.completes 0 [] []) 0).2.1 (by decide) (by decide)

/-- C7: a dry-run request whose argument vector builds successfully returns
status 200 with `ok = true` and the computed vector, spawns no child
process, and only records the rate-limit timestamp. -/
theorem c7_dry_run_short_circuit (req : CommandRequest) (al : Allowlist) (base : PyStr)
    (now : ℚ) (store : List ℚ) (behavior : ProcBehavior) (elapsed_ms : Int)
    (argv : List PyStr)
    (hrate : (pruneWindow now store).length < 15)
    (hdry : req.dry_run = true)
    (hbuild : build_argv req.cmd_id req.args al base = .ok argv) :
    run_command req al base now store behavior elapsed_ms =
      { status := 200, detail := none, resp := some { ok := true, argv := some argv },
        spawned := false, store := pruneWindow now store ++ [now] } := by
  have hall : check_rate_limit now store = .allowed (pruneWindow now store ++ [now]) := by
    simp only [check_rate_limit]
    rw [if_neg (Nat.not_le.2 hrate)]
  simp only [run_command, hall, hbuild, hdry, if_pos]

/-- C7 witness: the spec's scenario — allow-list
`{"echo_test": ["echo", {"msg": {"type": "string", "required": true}}]}`
with request `{cmd_id: "echo_test", args: {msg: "hello"}, dry_run: true}`
returns `ok = true` with argv `["echo", "hello"]` and spawns nothing. -/
theorem c7_witness :
    run_command echoReq echoAllowlist exBase 0 [] (.completes 0 [] []) 0 =
      { status := 200, detail := none,
        resp := some { ok := true, argv := some [chars "echo", chars "hello"] },
        spawned := false, store := pruneWindow 0 [] ++ [0] } :=
  c7_dry_run_short_circuit echoReq echoAllowlist exBase 0 [] (.completes 0 [] []) 0
    [chars "echo", chars "hello"] (by decide) rfl (by decide)

/-- Helper: a needle that begins with a slash cannot start inside a
slash-free prefix, so containment in the concatenation reduces to
containment in the suffix. -/
theorem strContainsSub_slash_append (q' p : PyStr) :
    ∀ a : PyStr, (∀ c ∈ a, c ≠ '/') →
      strContainsSub ('/' :: q') (a ++ p) = strContainsSub ('/' :: q') p := by
  intro a
  induction a with
  | nil => intro _; rw [List.nil_append]
  | cons x a' ih =>
    intro ha
    have hx : ¬(('/' : Char) = x) := fun he => ha x (List.mem_cons_self x a') he.symm
    have ha' : ∀ c ∈ a', c ≠ '/' := fun c hc => ha c (List.mem_cons_of_mem x hc)
    rw [List.cons_append]
    simp only [strContainsSub, strStartsWith, ih ha', decide_eq_false hx,
      Bool.false_and, Bool.false_or]

/-- C9 counterexample: the sanitizer's rejection message echoes the rejected
input, and the input may itself be an absolute filesystem path — rejecting
`/etc/passwd` produces a message containing the absolute path
`/etc/passwd`. -/
theorem c9_counterexample :
    sanitize_path (chars "/etc/passwd") exBase =
      .error (chars "Invalid path: /etc/passwd") ∧
    strContainsSub (chars "/etc/passwd") (chars "Invalid path: /etc/passwd") = true ∧
    strStartsWith (chars "/") (chars "/etc/passwd") = true := by
  decide

/-- C9 amended: every rejection message of the sanitizer is exactly
"Invalid path: " followed by the caller's own input; consequently any
absolute path string (a needle beginning with `/`) that does not occur in
the caller's input — in particular the server-side project root or resolved
path — never occurs in the message. -/
theorem c9_amended (p base m : PyStr)
    (herr : sanitize_path p base = .error m) :
    m = invalidPathMsg p ∧
    (∀ q', strContainsSub ('/' :: q') p = false →
      strContainsSub ('/' :: q') m = false) := by
  have hm : m = invalidPathMsg p := by
    simp only [sanitize_path] at herr
    split_ifs at herr
    · injection herr with h2
      exact h2.symm
    · injection herr with h2
      exact h2.symm
  refine ⟨hm, ?_⟩
  intro q' hp
  rw [hm]
  show strContainsSub ('/' :: q') (chars "Invalid path: " ++ p) = false
  rw [strContainsSub_slash_append q' p (chars "Invalid path: ") (by decide)]
  exact hp

/-- C9 witness: the rejection message for the in-root-but-rejected input
"a..b" does not contain the project root "/proj". -/
theorem c9_witness :
    strContainsSub ('/' :: chars "proj") (chars "Invalid path: a..b") = false :=
  (c9_amended (chars "a..b") exBase (chars "Invalid path: a..b") (by decide)).2
    (chars "proj") (by decide)

/-- Helper: a string starts with itself followed by anything. -/
theorem strStartsWith_append (a t : PyStr) : strStartsWith a (a ++ t) = true := by
  induction a with
  | nil => rfl
  | cons c a' ih => simp [strStartsWith, ih]

/-- Helper: an occurrence at the head is an occurrence. -/
theorem strContainsSub_of_starts (n h : PyStr) (hs : strStartsWith n h = true) :
    strContainsSub n h = true := by
  cases h with
  | nil => exact hs
  | cons c h' => simp [strContainsSub, hs]

/-- Helper: a contiguous occurrence anywhere is detected. -/
theorem strContainsSub_middle (n l t : PyStr) :
    strContainsSub n (l ++ (n ++ t)) = true := by
  induction l with
  | nil =>
    rw [List.nil_append]
    exact strContainsSub_of_starts n (n ++ t) (strStartsWith_append n t)
  | cons c l' ih => simp [strContainsSub, ih]

/-- Helper: splitting never yields the empty list of segments. -/
theorem splitOnSlash_ne_nil (p : PyStr) : splitOnSlash p ≠ [] := by
  cases p with
  | nil => simp [splitOnSlash]
  | cons c rest =>
    simp only [splitOnSlash]
    cases splitOnSlash rest with
    | nil => simp
    | cons s ss => by_cases h : c = '/' <;> simp [h]

/-- Helper: the first segment of a split is a leading part of the string. -/
theorem splitOnSlash_head (p : PyStr) :
    ∃ s ss t, splitOnSlash p = s :: ss ∧ p = s ++ t := by
  induction p with
  | nil => exact ⟨[], [], [], rfl, rfl⟩
  | cons c rest ih =>
    obtain ⟨s, ss, t, hsplit, hrest⟩ := ih
    by_cases h : c = '/'
    · subst h
      refine ⟨[], s :: ss, '/' :: rest, ?_, rfl⟩
      simp [splitOnSlash, hsplit]
    · refine ⟨c :: s, ss, t, ?_, by rw [hrest]; rfl⟩
      simp [splitOnSlash, hsplit, h]

/-- Helper: splitting after a leading slash prepends an empty segment. -/
theorem splitOnSlash_cons_slash (x : PyStr) :
    splitOnSlash ('/' :: x) = [] :: splitOnSlash x := by
  obtain ⟨s, ss, t, hsplit, -⟩ := splitOnSlash_head x
  simp [splitOnSlash, hsplit]

/-- Helper: every segment of a split occurs contiguously in the string. -/
theorem mem_splitOnSlash_decomp (seg : PyStr) :
    ∀ p : PyStr, seg ∈ splitOnSlash p → ∃ l t, p = l ++ (seg ++ t) := by
  intro p
  induction p with
  | nil =>
    intro hm
    simp [splitOnSlash] at hm
    subst hm
    exact ⟨[], [], rfl⟩
  | cons c rest ih =>
    intro hm
    by_cases h : c = '/'
    · subst h
      rw [splitOnSlash_cons_slash] at hm
      rcases List.mem_cons.mp hm with rfl | hm'
      · exact ⟨[], '/' :: rest, rfl⟩
      · obtain ⟨l, t, hp⟩ := ih hm'
        exact ⟨'/' :: l, t, by rw [hp]; rfl⟩
    · obtain ⟨s, ss, t0, hsplit, hrest⟩ := splitOnSlash_head rest
      rw [show splitOnSlash (c :: rest) = (c :: s) :: ss from by
        simp [splitOnSlash, hsplit, h]] at hm
      rcases List.mem_cons.mp hm with rfl | hm'
      · exact ⟨[], t0, by rw [hrest]; rfl⟩
      · obtain ⟨l, t, hp⟩ := ih (hsplit ▸ List.mem_cons_of_mem s hm')
        exact ⟨c :: l, t, by rw [hp]; rfl⟩

/-- Helper: a string with no `..` substring splits into no `..` segment. -/
theorem no_dotdot_segs (p : PyStr) (h : strContainsSub (chars "..") p = false) :
    ∀ seg ∈ splitOnSlash p, seg ≠ chars ".." := by
  intro seg hmem he
  subst he
  obtain ⟨l, t, hp⟩ := mem_splitOnSlash_decomp (chars "..") p hmem
  rw [hp, strContainsSub_middle] at h
  exact Bool.noConfusion h

/-- Helper: unpack the conjuncts of a valid segment. -/
theorem validSeg_props (s : PyStr) (h : validSeg s = true) :
    s ≠ [] ∧ (∀ c ∈ s, c ≠ '/') ∧ s ≠ chars "." ∧ s ≠ chars ".." := by
  simp only [validSeg, Bool.and_eq_true, Bool.not_eq_true', List.all_eq_true,
    decide_eq_true_eq, List.isEmpty_eq_false_iff_exists_mem] at h
  obtain ⟨⟨⟨h1, h2⟩, h3⟩, h4⟩ := h
  refine ⟨?_, h2, h3, h4⟩
  obtain ⟨x, hx⟩ := h1
  intro he
  rw [he] at hx
  cases hx

/-- Helper: the normalisation fold, over segments none of which is `..`,
pushes exactly the kept segments in order. -/
theorem foldl_normStep_no_dotdot :
    ∀ (l : List PyStr) (acc : List PyStr), (∀ s ∈ l, s ≠ chars "..") →
      List.foldl normStep acc l = (l.filter keepSeg).reverse ++ acc := by
  intro l
  induction l with
  | nil => intro acc _; simp
  | cons s l' ih =>
    intro acc h
    have hs : s ≠ chars ".." := h s (List.mem_cons_self s l')
    have h' : ∀ x ∈ l', x ≠ chars ".." := fun x hx => h x (List.mem_cons_of_mem s hx)
    rw [List.foldl_cons]
    by_cases hk : s = [] ∨ s = chars "."
    · have hkeep : keepSeg s = false := by
        rcases hk with rfl | rfl <;> simp [keepSeg, chars]
      rw [show normStep acc s = acc from by simp [normStep, hk]]
      rw [ih acc h']
      simp [List.filter_cons, hkeep]
    · have hkeep : keepSeg s = true := by
        push_neg at hk
        simp [keepSeg, hk.1, hk.2]
      rw [show normStep acc s = s :: acc from by simp [normStep, hk, hs]]
      rw [ih (s :: acc) h']
      simp [List.filter_cons, hkeep, List.append_assoc]

/-- Helper: a slash-free string is a single segment. -/
theorem splitOnSlash_no_slash :
    ∀ s : PyStr, (∀ c ∈ s, c ≠ '/') → splitOnSlash s = [s] := by
  intro s
  induction s with
  | nil => intro _; rfl
  | cons c s' ih =>
    intro h
    have hc : ¬(c = '/') := h c (List.mem_cons_self c s')
    have h' : ∀ x ∈ s', x ≠ '/' := fun x hx => h x (List.mem_cons_of_mem c hx)
    simp [splitOnSlash, ih h', hc]

/-- Helper: splitting distributes over concatenation at a slash. -/
theorem splitOnSlash_append_slash :
    ∀ a b : PyStr, splitOnSlash (a ++ '/' :: b) = splitOnSlash a ++ splitOnSlash b := by
  intro a b
  induction a with
  | nil =>
    rw [List.nil_append, splitOnSlash_cons_slash]
    rfl
  | cons c a' ih =>
    rw [List.cons_append]
    obtain ⟨s1, ss1, t1, hsplit1, -⟩ := splitOnSlash_head a'
    have hib : splitOnSlash (a' ++ '/' :: b) = s1 :: (ss1 ++ splitOnSlash b) := by
      rw [ih, hsplit1]
      rfl
    by_cases h : c = '/'
    · subst h
      rw [splitOnSlash_cons_slash, splitOnSlash_cons_slash, ih]
      rfl
    · rw [show splitOnSlash (c :: (a' ++ '/' :: b)) = (c :: s1) :: (ss1 ++ splitOnSlash b)
        from by simp [splitOnSlash, hib, h]]
      rw [show splitOnSlash (c :: a') = (c :: s1) :: ss1 from by
        simp [splitOnSlash, hsplit1, h]]
      rfl

/-- Helper: rendering valid segments and splitting again is the identity
(with the leading empty segment of an absolute path). -/
theorem splitOnSlash_strOfSegs :
    ∀ bs : List PyStr, (∀ s ∈ bs, validSeg s = true) →
      splitOnSlash (strOfSegs bs) = [] :: bs := by
  intro bs
  induction bs with
  | nil => intro _; rfl
  | cons s rest ih =>
    intro h
    have hnos : ∀ c ∈ s, c ≠ '/' := (validSeg_props s (h s (List.mem_cons_self s rest))).2.1
    have h' : ∀ x ∈ rest, validSeg x = true := fun x hx => h x (List.mem_cons_of_mem s hx)
    show splitOnSlash ('/' :: (s ++ strOfSegs rest)) = [] :: s :: rest
    rw [splitOnSlash_cons_slash]
    cases rest with
    | nil =>
      rw [show strOfSegs [] = [] from rfl, List.append_nil, splitOnSlash_no_slash s hnos]
    | cons r rs =>
      have hih := ih h'
      rw [show strOfSegs (r :: rs) = '/' :: (r ++ strOfSegs rs) from rfl] at hih ⊢
      rw [splitOnSlash_cons_slash] at hih
      injection hih with h1 h2
      rw [splitOnSlash_append_slash, splitOnSlash_no_slash s hnos, h2]
      rfl

/-- Helper: rendering distributes over segment concatenation. -/
theorem strOfSegs_append :
    ∀ a b : List PyStr, strOfSegs (a ++ b) = strOfSegs a ++ strOfSegs b := by
  intro a b
  induction a with
  | nil => rfl
  | cons s a' ih => simp [strOfSegs, ih, List.append_assoc]

/-- Helper: valid segments are all kept by normalisation. -/
theorem filter_keepSeg_of_valid :
    ∀ bs : List PyStr, (∀ s ∈ bs, validSeg s = true) → bs.filter keepSeg = bs := by
  intro bs h
  rw [List.filter_eq_self]
  intro s hs
  obtain ⟨h1, -, h3, -⟩ := validSeg_props s (h s hs)
  simp [keepSeg, h1, h3]

/-- Helper: resolving the join of a canonical root with a relative path free
of `..` appends exactly the path's kept segments to the root's segments. -/
theorem resolvePath_join (bs : List PyStr) (p : PyStr)
    (hbs : ∀ s ∈ bs, validSeg s = true)
    (hdd : strContainsSub (chars "..") p = false) :
    resolvePath (pathJoin (strOfSegs bs) p) =
      strOfSegs (bs ++ (splitOnSlash p).filter keepSeg) := by
  have hnb : ∀ s ∈ bs, s ≠ chars ".." := fun s hs => (validSeg_props s (hbs s hs)).2.2.2
  have hrev : ∀ acc : List PyStr, List.foldl normStep acc ([] :: bs) = bs.reverse ++ acc := by
    intro acc
    rw [List.foldl_cons, show normStep acc [] = acc from by simp [normStep],
      foldl_normStep_no_dotdot bs acc hnb, filter_keepSeg_of_valid bs hbs]
  by_cases hp : p = []
  · subst hp
    rw [show pathJoin (strOfSegs bs) [] = strOfSegs bs from by simp [pathJoin]]
    simp only [resolvePath, splitOnSlash_strOfSegs bs hbs, hrev, List.append_nil,
      List.reverse_reverse]
    rw [show splitOnSlash ([] : PyStr) = [[]] from rfl]
    simp [keepSeg]
  · rw [show pathJoin (strOfSegs bs) p = strOfSegs bs ++ '/' :: p from by
      simp [pathJoin, hp]]
    simp only [resolvePath, splitOnSlash_append_slash, splitOnSlash_strOfSegs bs hbs]
    rw [List.foldl_append, hrev []]
    rw [foldl_normStep_no_dotdot (splitOnSlash p) (bs.reverse ++ []) (no_dotdot_segs p hdd)]
    simp [List.reverse_append, List.reverse_reverse, List.append_nil]

/-- C2 counterexample: the relative path "a..b" names a single ordinary file
inside the project root — it has no parent-directory segment, no root
anchor, and its resolved form stays prefixed by the root — yet the sanitizer
rejects it, because the source tests for `..` as a plain substring of the
input rather than as a path segment. -/
theorem c2_counterexample :
    (∀ seg ∈ splitOnSlash (chars "a..b"), seg ≠ chars "..") ∧
    strStartsWith (chars "/") (chars "a..b") = false ∧
    strStartsWith exBase (resolvePath (pathJoin exBase (chars "a..b"))) = true ∧
    sanitize_path (chars "a..b") exBase = .error (invalidPathMsg (chars "a..b")) := by
  decide

/-- C2 amended: the sanitizer rejects exactly the inputs containing the
two-character substring `..` (even inside an ordinary file name) or starting
with `/`; every other relative path — existence never being checked — is
accepted, and the returned path is the join of the root with the input,
whose string form is prefixed by the root's canonical string. -/
theorem c2_amended (p : PyStr) (bs : List PyStr)
    (hbs : ∀ s ∈ bs, validSeg s = true) :
    ((strContainsSub (chars "..") p = true ∨ strStartsWith (chars "/") p = true) →
      sanitize_path p (strOfSegs bs) = .error (invalidPathMsg p)) ∧
    (strContainsSub (chars "..") p = false → strStartsWith (chars "/") p = false →
      sanitize_path p (strOfSegs bs) = .ok (pathJoin (strOfSegs bs) p) ∧
      strStartsWith (strOfSegs bs) (pathJoin (strOfSegs bs) p) = true) := by
  constructor
  · intro h
    have hcond : (strContainsSub (chars "..") p || strStartsWith (chars "/") p) = true := by
      rcases h with h | h <;> simp [h]
    simp only [sanitize_path]
    rw [if_pos hcond]
  · intro h1 h2
    have hstart : strStartsWith (strOfSegs bs) (pathJoin (strOfSegs bs) p) = true := by
      by_cases hp : p = []
      · subst hp
        rw [show pathJoin (strOfSegs bs) [] = strOfSegs bs from by simp [pathJoin]]
        have hsa := strStartsWith_append (strOfSegs bs) []
        rwa [List.append_nil] at hsa
      · rw [show pathJoin (strOfSegs bs) p = strOfSegs bs ++ '/' :: p from by
          simp [pathJoin, hp]]
        exact strStartsWith_append _ _
    refine ⟨?_, hstart⟩
    have hres : strStartsWith (strOfSegs bs) (resolvePath (pathJoin (strOfSegs bs) p))
        = true := by
      rw [resolvePath_join bs p hbs h1, strOfSegs_append]
      exact strStartsWith_append _ _
    simp only [sanitize_path]
    rw [if_neg (by simp [h1, h2]), if_pos hres]

/-- C2 witness: a relative path to a (possibly nonexistent) file inside the
root is accepted and the returned path is prefixed by the root. -/
theorem c2_witness :
    sanitize_path (chars "docs/demo.json") (strOfSegs [chars "proj"]) =
      .ok (pathJoin (strOfSegs [chars "proj"]) (chars "docs/demo.json")) ∧
    strStartsWith (strOfSegs [chars "proj"])
      (pathJoin (strOfSegs [chars "proj"]) (chars "docs/demo.json")) = true :=
  (c2_amended (chars "docs/demo.json") [chars "proj"] (by decide)).2
    (by decide) (by decide)
